import Mathlib

/-!
Shallow embedding of the QuickCall MCP-elicitation frontend
(`src/frontend/src/app/page.tsx`) and proofs about its behaviour.

The embedding models the state of the `Home` React component and the pure
state-transition functions extracted from its event handlers:

* `handleOptionClick`, `handleSubmitArray`, `handleSubmitText` from
  `ElicitationDialog`;
* `handleElicitationResponse` (answer intake POST) as a transition on the
  component state, parameterised by whether the POST succeeds;
* `sendMessage` (one chat turn): the guard, the per-stream-line dispatch
  (`processLine`), and the end-of-stream finalisation (`finishTurn`).

Nondeterministic or external ingredients are modelled explicitly:
`crypto.randomUUID` for tool-call ids becomes a per-turn counter (only
freshness matters, never the value); `Date` timestamps and the random
flow-event ids are omitted from `FlowEvent` (no code reads them back);
`JSON.stringify` becomes a pure serialisation (`stringifyArgs`,
`stringifyResponse`) whose rendered text no property depends on; the fetch
calls become an explicit success/failure parameter and, for the chat
stream, the list of already-classified stream lines the reader loop
dispatches on.
-/

namespace QuickCall

/-- Lowercasing of a string, modelling the JavaScript
`String.prototype.toLowerCase` used in `page.tsx` (character-wise, which
coincides with JS on the ASCII messages involved). Implemented over the
character list so that it reduces in the kernel. -/
def strLower (s : String) : String := ⟨s.data.map Char.toLower⟩

/-- Whitespace test for `strTrim`. -/
def isWs (c : Char) : Bool := c.isWhitespace

/-- Trimming of leading and trailing whitespace, modelling the JavaScript
`String.prototype.trim` used in `page.tsx`. Implemented over the character
list so that it reduces in the kernel. -/
def strTrim (s : String) : String :=
  ⟨((s.data.dropWhile isWs).reverse.dropWhile isWs).reverse⟩

/-- Does the character list `needle` occur at the start of `hay`? -/
def charsLead : List Char → List Char → Bool
  | [], _ => true
  | _ :: _, [] => false
  | a :: as, b :: bs => a == b && charsLead as bs

/-- Does the character list `needle` occur anywhere inside `hay`? -/
def charsHave (needle : List Char) : List Char → Bool
  | [] => charsLead needle []
  | c :: cs => charsLead needle (c :: cs) || charsHave needle cs

/-- Substring test, modelling the JavaScript `String.prototype.includes`
used in `page.tsx`. -/
def strIncludes (s sub : String) : Bool := charsHave sub.data s.data

/-- `s.toLowerCase().includes(sub)`, the pattern `page.tsx` applies to the
elicitation prompt message. -/
def lowerIncludes (s sub : String) : Bool := strIncludes (strLower s) sub

/-- Message role, from the `Message` interface in `page.tsx`. -/
inductive Role where
  | user
  | assistant
deriving DecidableEq

/-- Tool-call status, from the `ToolCall` interface in `page.tsx`. -/
inductive ToolStatus where
  | running
  | completed
deriving DecidableEq

/-- Tool-call arguments (`parsed.args`), carried opaquely by the frontend;
modelled as a list of key/value pairs of a JSON object. -/
structure ToolArgs where
  pairs : List (String × String)
deriving DecidableEq

/-- Tool result (`parsed.result`), carried opaquely by the frontend;
modelled as a list of key/value pairs of a JSON object. -/
structure ToolRes where
  pairs : List (String × String)
deriving DecidableEq

/-- One tool call, from the `ToolCall` interface in `page.tsx`. -/
structure ToolCall where
  id : String
  name : String
  args : ToolArgs
  result : Option ToolRes
  status : ToolStatus
deriving DecidableEq

/-- One chat message, from the `Message` interface in `page.tsx`. -/
structure Message where
  role : Role
  content : String
  toolCalls : Option (List ToolCall)
deriving DecidableEq

/-- Flow-event categories, from the `FlowEvent` interface in `page.tsx`. -/
inductive FlowType where
  | user
  | backend
  | mcp
  | elicitation
  | tool_result
deriving DecidableEq

/-- One flow-panel event, from the `FlowEvent` interface in `page.tsx`.
The random `id` and the `timestamp` are omitted: no handler reads them. -/
structure FlowEvent where
  type : FlowType
  label : String
  detail : Option String
deriving DecidableEq

/-- The schema of one property inside an elicitation request schema; only
its `type` field is read by `page.tsx` (`fieldSchema.type === "array"`). -/
structure FieldSchema where
  type : Option String
deriving DecidableEq

/-- An elicitation request constraint schema; `page.tsx` reads only
`schema.properties`, modelled as an association list in key-insertion
order (so `Object.keys(properties)[0]` is the head). -/
structure Schema where
  properties : List (String × FieldSchema)
deriving DecidableEq

/-- An elicitation request, from the `ElicitationRequest` interface in
`page.tsx`; `options = none` models the JSON `null`. -/
structure ElicitationRequest where
  elicitation_id : String
  message : String
  options : Option (List String)
  schema : Option Schema
deriving DecidableEq

/-- The JSON value placed in the `value` field of an elicitation response
body; distinguishing string from list values lets a theorem state which
wire shape the frontend actually sends. -/
inductive AnswerValue where
  | str : String → AnswerValue
  | list : List String → AnswerValue
deriving DecidableEq

/-- The object passed to `onRespond` by `ElicitationDialog`; always of the
shape `\x7b value: ... \x7d` in `page.tsx`. -/
structure ResponseBody where
  value : AnswerValue
deriving DecidableEq

/-- The body POSTed to `/elicitation/respond` by
`handleElicitationResponse`. -/
structure AnswerPost where
  elicitation_id : String
  response : ResponseBody
deriving DecidableEq

/-- The first property schema of a request, modelling
`properties = schema?.properties || \x7b\x7d`,
`fieldName = Object.keys(properties)[0] || "value"`,
`fieldSchema = properties[fieldName] || \x7b\x7d` in `ElicitationDialog`. -/
def firstFieldSchema (r : ElicitationRequest) : FieldSchema :=
  match r.schema with
  | none => ⟨none⟩
  | some s =>
    match s.properties with
    | [] => ⟨none⟩
    | (_, fs) :: _ => fs

/-- Does the prompt message mention a title, modelling `isTitle` in
`ElicitationDialog` (used only to prefill the text input). -/
def isTitleMessage (r : ElicitationRequest) : Bool :=
  lowerIncludes r.message "called" || lowerIncludes r.message "title"

/-- Does the prompt message mention attendance, modelling `isParticipants`
in `ElicitationDialog`. -/
def isParticipantsMessage (r : ElicitationRequest) : Bool :=
  lowerIncludes r.message "attend" || lowerIncludes r.message "participant"

/-- The `isArray` flag of `ElicitationDialog`:
`fieldSchema.type === "array" || isParticipants`. -/
def isArrayKind (r : ElicitationRequest) : Bool :=
  (firstFieldSchema r).type == some "array" || isParticipantsMessage r

/-- The kind of input widget `ElicitationDialog` renders. -/
inductive InputKind where
  | freeText
  | singleChoice
  | multiChoice
deriving DecidableEq

/-- Which input widget `ElicitationDialog` renders: the option-button
branch is taken when `request.options` is non-null (`request.options ?` in
the JSX), and within it the confirm button for a multi-selection appears
exactly when `isArray` holds; otherwise the free-text input renders. -/
def renderedKind (r : ElicitationRequest) : InputKind :=
  match r.options with
  | some _ => if isArrayKind r then InputKind.multiChoice else InputKind.singleChoice
  | none => InputKind.freeText

/-- The selection update of `handleOptionClick` in its `isArray` branch:
`prev.includes(option) ? prev.filter((o) => o !== option) : [...prev, option]`. -/
def toggleOption (sel : List String) (o : String) : List String :=
  if sel.contains o then sel.filter (fun x => x != o) else sel ++ [o]

/-- Outcome of one option click: either a new selection state (multi
select) or an immediate response (single select). -/
inductive ClickOutcome where
  | select : List String → ClickOutcome
  | respond : ResponseBody → ClickOutcome
deriving DecidableEq

/-- `handleOptionClick` from `ElicitationDialog`: in the `isArray` case the
click toggles membership in `selectedOptions`; otherwise it responds at
once with `\x7b value: option \x7d`. -/
def handleOptionClick (isArr : Bool) (sel : List String) (o : String) : ClickOutcome :=
  if isArr then ClickOutcome.select (toggleOption sel o)
  else ClickOutcome.respond ⟨AnswerValue.str o⟩

/-- `handleSubmitArray` from `ElicitationDialog`: when the selection is
non-empty it responds with `\x7b value: selectedOptions.join(", ") \x7d`
(a single comma-separated string); otherwise it does nothing. -/
def handleSubmitArray (sel : List String) : Option ResponseBody :=
  if sel.length > 0 then some ⟨AnswerValue.str (String.intercalate ", " sel)⟩ else none

/-- `handleSubmitText` from `ElicitationDialog`: responds with the trimmed
text when it is non-empty. -/
def handleSubmitText (t : String) : Option ResponseBody :=
  if strTrim t != "" then some ⟨AnswerValue.str (strTrim t)⟩ else none

/-- The state of the `Home` component that the handlers under study read
or write: `messages`, `input`, `isLoading`, `flowEvents`, `elicitation`,
`streamingContent`, `currentToolCalls`. -/
structure HomeState where
  messages : List Message
  input : String
  isLoading : Bool
  flowEvents : List FlowEvent
  elicitation : Option ElicitationRequest
  streamingContent : String
  currentToolCalls : List ToolCall
deriving DecidableEq

/-- Pure serialisation of an answer value, standing in for
`JSON.stringify` in flow-event details; no property depends on the
rendered text. -/
def stringifyAnswerValue : AnswerValue → String
  | AnswerValue.str s => s
  | AnswerValue.list l => String.intercalate ", " l

/-- Pure serialisation of a response body for the flow-event detail. -/
def stringifyResponse (r : ResponseBody) : String :=
  "value: " ++ stringifyAnswerValue r.value

/-- Pure serialisation of tool arguments for the flow-event detail. -/
def stringifyArgs (a : ToolArgs) : String :=
  String.intercalate ", " (a.pairs.map (fun p => p.1 ++ "=" ++ p.2))

/-- `handleElicitationResponse` from `Home`, as a transition on the
component state. It returns the new state together with the body POSTed
to `/elicitation/respond` (`none` when no POST is made). The `postOk`
parameter tells whether the `fetch` succeeds; on failure the catch block
only logs, so `setElicitation(null)` never runs. The guard
`if (!elicitation) return` makes the call a no-op when nothing is
pending. -/
def handleElicitationResponse (st : HomeState) (resp : ResponseBody) (postOk : Bool) :
    HomeState × Option AnswerPost :=
  match st.elicitation with
  | none => (st, none)
  | some e =>
    let st1 := { st with
      flowEvents := st.flowEvents ++
        [⟨FlowType.user, "User responded", some (stringifyResponse resp)⟩] }
    let body : AnswerPost := ⟨e.elicitation_id, resp⟩
    if postOk then ({ st1 with elicitation := none }, some body)
    else (st1, some body)

/-- The multi-choice confirm path: `handleSubmitArray` composed with
`onRespond = handleElicitationResponse`, as wired in the `Home` JSX. -/
def confirmMultiChoice (st : HomeState) (sel : List String) (postOk : Bool) :
    HomeState × Option AnswerPost :=
  match handleSubmitArray sel with
  | none => (st, none)
  | some resp => handleElicitationResponse st resp postOk

/-- One line of the chat response stream, already classified the way the
reader loop in `sendMessage` classifies it: a line not starting with
`data: ` is skipped (`notData`); the `[DONE]` sentinel; the three
recognised JSON event types; a text delta taken from
`parsed.choices[0].delta.content`; and `other` for malformed JSON or JSON
matching none of the branches. -/
inductive StreamLine where
  | notData : StreamLine
  | done : StreamLine
  | toolStart : String → ToolArgs → StreamLine
  | elicitationReq : ElicitationRequest → StreamLine
  | toolResult : String → ToolRes → StreamLine
  | textDelta : String → StreamLine
  | other : StreamLine
deriving DecidableEq

/-- The state threaded through one execution of `sendMessage`: the
component state plus the local variables `accumulatedContent` and
`toolCallsForMessage`, and a counter standing in for `crypto.randomUUID`
when minting tool-call ids (only freshness matters). -/
structure TurnState where
  home : HomeState
  accumulatedContent : String
  toolCallsForMessage : List ToolCall
  nextId : Nat
deriving DecidableEq

/-- The assistant message appended by `sendMessage`:
`\x7b role: "assistant", content, toolCalls: toolCallsForMessage.length > 0 ? [...] : undefined \x7d`. -/
def assistantMessage (content : String) (tools : List ToolCall) : Message :=
  ⟨Role.assistant, content, if tools.length > 0 then some tools else none⟩

/-- One iteration of the `for (const line of lines)` dispatch in
`sendMessage`, transcribed branch by branch from `page.tsx`. Note that
the `[DONE]` branch clears `streamingContent` and `currentToolCalls` but
leaves the local `accumulatedContent` untouched. -/
def processLine (ts : TurnState) : StreamLine → TurnState
  | StreamLine.notData => ts
  | StreamLine.other => ts
  | StreamLine.done =>
    if ts.accumulatedContent != "" then
      { ts with home := { ts.home with
          messages := ts.home.messages ++
            [assistantMessage ts.accumulatedContent ts.toolCallsForMessage],
          streamingContent := "",
          currentToolCalls := [] } }
    else ts
  | StreamLine.toolStart name args =>
    let newTool : ToolCall := ⟨toString ts.nextId, name, args, none, ToolStatus.running⟩
    let tools := ts.toolCallsForMessage ++ [newTool]
    { ts with
      home := { ts.home with
        flowEvents := ts.home.flowEvents ++
          [⟨FlowType.mcp, "Tool: " ++ name, some (stringifyArgs args)⟩],
        currentToolCalls := tools },
      toolCallsForMessage := tools,
      nextId := ts.nextId + 1 }
  | StreamLine.elicitationReq req =>
    { ts with home := { ts.home with
        flowEvents := ts.home.flowEvents ++
          [⟨FlowType.elicitation, "Input needed", some req.message⟩],
        elicitation := some req } }
  | StreamLine.toolResult name result =>
    let tools := ts.toolCallsForMessage.map (fun t =>
      if t.name == name then { t with status := ToolStatus.completed, result := some result }
      else t)
    { ts with
      home := { ts.home with
        flowEvents := ts.home.flowEvents ++
          [⟨FlowType.tool_result, "Completed: " ++ name, some "Success"⟩],
        currentToolCalls := tools },
      toolCallsForMessage := tools }
  | StreamLine.textDelta content =>
    if content != "" then
      { ts with
        accumulatedContent := ts.accumulatedContent ++ content,
        home := { ts.home with streamingContent := ts.accumulatedContent ++ content } }
    else ts

/-- Processing of a whole stream of lines, in order. -/
def processLines (ts : TurnState) : List StreamLine → TurnState
  | [] => ts
  | l :: ls => processLines (processLine ts l) ls

/-- The code after the reader loop in `sendMessage`: if
`accumulatedContent` is non-empty, append the assistant message (again)
and clear the streaming state. -/
def finishTurn (ts : TurnState) : TurnState :=
  if ts.accumulatedContent != "" then
    { ts with home := { ts.home with
        messages := ts.home.messages ++
          [assistantMessage ts.accumulatedContent ts.toolCallsForMessage],
        streamingContent := "",
        currentToolCalls := [] } }
  else ts

/-- `sendMessage` from `Home`. `fetchResult = none` models a failed fetch
or missing body (the catch path adds an error flow event); `some lines`
models a successful response whose stream delivers the given classified
lines and then closes. The returned Bool records whether a network
request was issued. The guard `if (!input.trim() || isLoading) return`
is the first line. -/
def sendMessage (st : HomeState) (fetchResult : Option (List StreamLine)) :
    HomeState × Bool :=
  if strTrim st.input == "" || st.isLoading then (st, false)
  else
    let userMessage := strTrim st.input
    let st1 : HomeState := { st with
      input := "",
      messages := st.messages ++ [⟨Role.user, userMessage, none⟩],
      isLoading := true,
      streamingContent := "",
      currentToolCalls := [],
      flowEvents := st.flowEvents ++
        [⟨FlowType.user, "User sent message", some userMessage⟩,
         ⟨FlowType.backend, "Request to backend", some "POST /chat"⟩] }
    match fetchResult with
    | none =>
      ({ st1 with
          flowEvents := st1.flowEvents ++
            [⟨FlowType.backend, "Error occurred", some "fetch error"⟩],
          isLoading := false }, true)
    | some lines =>
      let ts := finishTurn (processLines ⟨st1, "", [], 0⟩ lines)
      ({ ts.home with isLoading := false }, true)

/-- The flow events one stream line makes the dispatch append; a pure
function of the line alone. -/
def lineFlowEvents : StreamLine → List FlowEvent
  | StreamLine.toolStart name args =>
    [⟨FlowType.mcp, "Tool: " ++ name, some (stringifyArgs args)⟩]
  | StreamLine.elicitationReq req =>
    [⟨FlowType.elicitation, "Input needed", some req.message⟩]
  | StreamLine.toolResult name _ =>
    [⟨FlowType.tool_result, "Completed: " ++ name, some "Success"⟩]
  | _ => []

/-- The flow events a list of stream lines appends, in order. -/
def turnFlowEvents : List StreamLine → List FlowEvent
  | [] => []
  | l :: ls => lineFlowEvents l ++ turnFlowEvents ls

/-- Helper: processing one stream line appends exactly that line's flow
events to the flow log. -/
theorem processLine_flowEvents (ts : TurnState) (l : StreamLine) :
    (processLine ts l).home.flowEvents = ts.home.flowEvents ++ lineFlowEvents l := by
  cases l <;> simp only [processLine, lineFlowEvents] <;> (try split) <;> simp

/-- Helper: processing a list of stream lines appends their flow events in
order. -/
theorem processLines_flowEvents (ts : TurnState) (lines : List StreamLine) :
    (processLines ts lines).home.flowEvents = ts.home.flowEvents ++ turnFlowEvents lines := by
  induction lines generalizing ts with
  | nil => simp [processLines, turnFlowEvents]
  | cons l ls ih =>
    simp only [processLines, turnFlowEvents]
    rw [ih, processLine_flowEvents, List.append_assoc]

/-- C7: within one chat turn, flow events are appended to the flow log in
exactly the order the corresponding stream lines are processed, and the
log is append-only: each dispatch step only appends, never removing,
reordering or rewriting previously logged events. -/
theorem flow_log_append_only_in_line_order (ts : TurnState) (lines : List StreamLine) :
    (processLines ts lines).home.flowEvents = ts.home.flowEvents ++ turnFlowEvents lines ∧
    ∀ l : StreamLine, ∃ added : List FlowEvent,
      (processLine ts l).home.flowEvents = ts.home.flowEvents ++ added := by
  exact ⟨processLines_flowEvents ts lines,
    fun l => ⟨lineFlowEvents l, processLine_flowEvents ts l⟩⟩

/-- C8: when a previous chat request is still in flight (`isLoading`) or
the input is empty after trimming, `sendMessage` performs no network
request and leaves the entire state — message list and flow log included —
unchanged. -/
theorem sendMessage_noop_when_loading_or_empty (st : HomeState)
    (fetchResult : Option (List StreamLine))
    (h : strTrim st.input = "" ∨ st.isLoading = true) :
    sendMessage st fetchResult = (st, false) := by
  unfold sendMessage
  rcases h with h | h <;> simp [h]

/-- C8 witness: a concrete in-flight state on which `sendMessage` is a
no-op. -/
theorem sendMessage_noop_witness :
    (strTrim (HomeState.mk [] "hello" true [] none "" []).input = "" ∨
      (HomeState.mk [] "hello" true [] none "" []).isLoading = true) ∧
    sendMessage (HomeState.mk [] "hello" true [] none "" [])
      (some [StreamLine.textDelta "x"]) =
      (HomeState.mk [] "hello" true [] none "" [], false) :=
  ⟨Or.inr rfl,
    sendMessage_noop_when_loading_or_empty (HomeState.mk [] "hello" true [] none "" [])
      (some [StreamLine.textDelta "x"]) (Or.inr rfl)⟩

/-- C9: a `tool_result` stream event marks every tool call of the current
turn whose name equals the event's name as completed, attaching the
event's result, and leaves every tool call with a different name entirely
unchanged. -/
theorem tool_result_marks_matching_only (ts : TurnState) (n : String) (r : ToolRes)
    (i : Nat) (t : ToolCall) (h : ts.toolCallsForMessage[i]? = some t) :
    (t.name = n →
      (processLine ts (StreamLine.toolResult n r)).toolCallsForMessage[i]? =
        some { t with status := ToolStatus.completed, result := some r }) ∧
    (t.name ≠ n →
      (processLine ts (StreamLine.toolResult n r)).toolCallsForMessage[i]? = some t) := by
  have hmap : (processLine ts (StreamLine.toolResult n r)).toolCallsForMessage =
      ts.toolCallsForMessage.map (fun t =>
        if t.name == n then { t with status := ToolStatus.completed, result := some r }
        else t) := rfl
  constructor
  · intro he
    rw [hmap, List.getElem?_map, h]
    simp [he]
  · intro hne
    rw [hmap, List.getElem?_map, h]
    simp [hne]

/-- C9 witness: a concrete turn with two tool calls, one matching the
event name and one not; the first is completed with the result attached
and the second is untouched. -/
theorem tool_result_marks_matching_only_witness :
    (TurnState.mk (HomeState.mk [] "" true [] none "" []) ""
        [⟨"0", "schedule_meeting", ⟨[]⟩, none, ToolStatus.running⟩,
         ⟨"1", "lookup_room", ⟨[]⟩, none, ToolStatus.running⟩] 2).toolCallsForMessage[0]? =
      some ⟨"0", "schedule_meeting", ⟨[]⟩, none, ToolStatus.running⟩ ∧
    (processLine
        (TurnState.mk (HomeState.mk [] "" true [] none "" []) ""
          [⟨"0", "schedule_meeting", ⟨[]⟩, none, ToolStatus.running⟩,
           ⟨"1", "lookup_room", ⟨[]⟩, none, ToolStatus.running⟩] 2)
        (StreamLine.toolResult "schedule_meeting" ⟨[("success", "true")]⟩)).toolCallsForMessage[0]? =
      some ⟨"0", "schedule_meeting", ⟨[]⟩, some ⟨[("success", "true")]⟩, ToolStatus.completed⟩ ∧
    (processLine
        (TurnState.mk (HomeState.mk [] "" true [] none "" []) ""
          [⟨"0", "schedule_meeting", ⟨[]⟩, none, ToolStatus.running⟩,
           ⟨"1", "lookup_room", ⟨[]⟩, none, ToolStatus.running⟩] 2)
        (StreamLine.toolResult "schedule_meeting" ⟨[("success", "true")]⟩)).toolCallsForMessage[1]? =
      some ⟨"1", "lookup_room", ⟨[]⟩, none, ToolStatus.running⟩ :=
  ⟨rfl,
    (tool_result_marks_matching_only
        (TurnState.mk (HomeState.mk [] "" true [] none "" []) ""
          [⟨"0", "schedule_meeting", ⟨[]⟩, none, ToolStatus.running⟩,
           ⟨"1", "lookup_room", ⟨[]⟩, none, ToolStatus.running⟩] 2)
        "schedule_meeting" ⟨[("success", "true")]⟩ 0
        ⟨"0", "schedule_meeting", ⟨[]⟩, none, ToolStatus.running⟩ rfl).1 rfl,
    (tool_result_marks_matching_only
        (TurnState.mk (HomeState.mk [] "" true [] none "" []) ""
          [⟨"0", "schedule_meeting", ⟨[]⟩, none, ToolStatus.running⟩,
           ⟨"1", "lookup_room", ⟨[]⟩, none, ToolStatus.running⟩] 2)
        "schedule_meeting" ⟨[("success", "true")]⟩ 1
        ⟨"1", "lookup_room", ⟨[]⟩, none, ToolStatus.running⟩ rfl).2 (by decide)⟩

/-- Helper: when no elicitation is pending, `handleElicitationResponse`
returns the state unchanged and posts nothing. -/
theorem handleElicitationResponse_of_none (s : HomeState) (r : ResponseBody) (o : Bool)
    (h : s.elicitation = none) : handleElicitationResponse s r o = (s, none) := by
  unfold handleElicitationResponse
  rw [h]

/-- C5: at most one answer submission succeeds for an elicitation. When no
elicitation is pending, `handleElicitationResponse` performs no POST and
changes no state; when one is pending, a successful POST clears the
pending elicitation to `none`, after which every further call is a no-op
that posts nothing. -/
theorem elicitation_answered_at_most_once (st : HomeState) (resp : ResponseBody) (ok : Bool) :
    (st.elicitation = none → handleElicitationResponse st resp ok = (st, none)) ∧
    (∀ e, st.elicitation = some e →
      (handleElicitationResponse st resp true).1.elicitation = none ∧
      ∀ r2 ok2,
        handleElicitationResponse (handleElicitationResponse st resp true).1 r2 ok2 =
          ((handleElicitationResponse st resp true).1, none)) := by
  constructor
  · intro h
    exact handleElicitationResponse_of_none st resp ok h
  · intro e he
    have h1 : (handleElicitationResponse st resp true).1.elicitation = none := by
      unfold handleElicitationResponse
      rw [he]
      simp
    exact ⟨h1, fun r2 ok2 =>
      handleElicitationResponse_of_none (handleElicitationResponse st resp true).1 r2 ok2 h1⟩

/-- C5 witness: a concrete pending elicitation; the successful call clears
it and the follow-up call is a stateless no-op with no POST. -/
theorem elicitation_answered_at_most_once_witness :
    (HomeState.mk [] "" false []
        (some ⟨"e1", "Who will attend?", some ["Alice", "Bob"], none⟩) "" []).elicitation =
      some ⟨"e1", "Who will attend?", some ["Alice", "Bob"], none⟩ ∧
    (handleElicitationResponse
        (HomeState.mk [] "" false []
          (some ⟨"e1", "Who will attend?", some ["Alice", "Bob"], none⟩) "" [])
        ⟨AnswerValue.str "Bob"⟩ true).1.elicitation = none ∧
    handleElicitationResponse
        (handleElicitationResponse
          (HomeState.mk [] "" false []
            (some ⟨"e1", "Who will attend?", some ["Alice", "Bob"], none⟩) "" [])
          ⟨AnswerValue.str "Bob"⟩ true).1 ⟨AnswerValue.str "Alice"⟩ true =
      ((handleElicitationResponse
          (HomeState.mk [] "" false []
            (some ⟨"e1", "Who will attend?", some ["Alice", "Bob"], none⟩) "" [])
          ⟨AnswerValue.str "Bob"⟩ true).1, none) :=
  ⟨rfl,
    ((elicitation_answered_at_most_once
        (HomeState.mk [] "" false []
          (some ⟨"e1", "Who will attend?", some ["Alice", "Bob"], none⟩) "" [])
        ⟨AnswerValue.str "Bob"⟩ true).2
      ⟨"e1", "Who will attend?", some ["Alice", "Bob"], none⟩ rfl).1,
    ((elicitation_answered_at_most_once
        (HomeState.mk [] "" false []
          (some ⟨"e1", "Who will attend?", some ["Alice", "Bob"], none⟩) "" [])
        ⟨AnswerValue.str "Bob"⟩ true).2
      ⟨"e1", "Who will attend?", some ["Alice", "Bob"], none⟩ rfl).2
      ⟨AnswerValue.str "Alice"⟩ true⟩

/-- C6: a failed answer POST is non-fatal and atomic for the frontend
state: the message list, the streaming state, the loading flag and the
current tool calls are unchanged, and the elicitation remains pending for
a retry; the pending elicitation is cleared exactly when the POST
succeeds. -/
theorem post_failure_keeps_elicitation_pending (st : HomeState) (resp : ResponseBody)
    (e : ElicitationRequest) (he : st.elicitation = some e) :
    (handleElicitationResponse st resp false).1.messages = st.messages ∧
    (handleElicitationResponse st resp false).1.streamingContent = st.streamingContent ∧
    (handleElicitationResponse st resp false).1.currentToolCalls = st.currentToolCalls ∧
    (handleElicitationResponse st resp false).1.isLoading = st.isLoading ∧
    (handleElicitationResponse st resp false).1.elicitation = some e ∧
    (∀ ok, (handleElicitationResponse st resp ok).1.elicitation = none ↔ ok = true) := by
  unfold handleElicitationResponse
  rw [he]
  refine ⟨rfl, rfl, rfl, rfl, rfl, fun ok => ?_⟩
  cases ok <;> simp

/-- C6 witness: a concrete failed POST keeps the concrete elicitation
pending with messages and streaming state intact. -/
theorem post_failure_keeps_elicitation_pending_witness :
    (HomeState.mk [⟨Role.user, "Schedule a meeting", none⟩] "" true []
        (some ⟨"e2", "What is the meeting called?", none, none⟩) "Working" []).elicitation =
      some ⟨"e2", "What is the meeting called?", none, none⟩ ∧
    (handleElicitationResponse
        (HomeState.mk [⟨Role.user, "Schedule a meeting", none⟩] "" true []
          (some ⟨"e2", "What is the meeting called?", none, none⟩) "Working" [])
        ⟨AnswerValue.str "quick call syncup"⟩ false).1.messages =
      [⟨Role.user, "Schedule a meeting", none⟩] ∧
    (handleElicitationResponse
        (HomeState.mk [⟨Role.user, "Schedule a meeting", none⟩] "" true []
          (some ⟨"e2", "What is the meeting called?", none, none⟩) "Working" [])
        ⟨AnswerValue.str "quick call syncup"⟩ false).1.streamingContent = "Working" ∧
    (handleElicitationResponse
        (HomeState.mk [⟨Role.user, "Schedule a meeting", none⟩] "" true []
          (some ⟨"e2", "What is the meeting called?", none, none⟩) "Working" [])
        ⟨AnswerValue.str "quick call syncup"⟩ false).1.elicitation =
      some ⟨"e2", "What is the meeting called?", none, none⟩ :=
  ⟨rfl,
    (post_failure_keeps_elicitation_pending
      (HomeState.mk [⟨Role.user, "Schedule a meeting", none⟩] "" true []
        (some ⟨"e2", "What is the meeting called?", none, none⟩) "Working" [])
      ⟨AnswerValue.str "quick call syncup"⟩
      ⟨"e2", "What is the meeting called?", none, none⟩ rfl).1,
    (post_failure_keeps_elicitation_pending
      (HomeState.mk [⟨Role.user, "Schedule a meeting", none⟩] "" true []
        (some ⟨"e2", "What is the meeting called?", none, none⟩) "Working" [])
      ⟨AnswerValue.str "quick call syncup"⟩
      ⟨"e2", "What is the meeting called?", none, none⟩ rfl).2.1,
    (post_failure_keeps_elicitation_pending
      (HomeState.mk [⟨Role.user, "Schedule a meeting", none⟩] "" true []
        (some ⟨"e2", "What is the meeting called?", none, none⟩) "Working" [])
      ⟨AnswerValue.str "quick call syncup"⟩
      ⟨"e2", "What is the meeting called?", none, none⟩ rfl).2.2.2.2.1⟩

/-- Helper: membership and `List.contains` agree for strings. -/
theorem contains_eq_true_iff (sel : List String) (o : String) :
    sel.contains o = true ↔ o ∈ sel :=
  List.elem_iff

/-- C10: an option click in a multi-choice dialog preserves the selection
invariant — the selection has no duplicate labels and stays inside the
offered options — and toggles the clicked label's membership. The initial
selection `[]` satisfies the invariant trivially. -/
theorem toggleOption_preserves_invariant (sel : List String) (o : String)
    (options : List String) (hnd : sel.Nodup) (hsub : ∀ x ∈ sel, x ∈ options)
    (ho : o ∈ options) :
    (toggleOption sel o).Nodup ∧ (∀ x ∈ toggleOption sel o, x ∈ options) ∧
    (o ∈ toggleOption sel o ↔ o ∉ sel) := by
  unfold toggleOption
  by_cases hm : o ∈ sel
  · rw [if_pos ((contains_eq_true_iff sel o).mpr hm)]
    refine ⟨hnd.filter _, fun x hx => hsub x (List.mem_of_mem_filter hx), ?_⟩
    simp [List.mem_filter, hm]
  · rw [if_neg (fun hc => hm ((contains_eq_true_iff sel o).mp hc))]
    refine ⟨?_, ?_, ?_⟩
    · simp [List.nodup_append, hnd, hm]
    · intro x hx
      rcases List.mem_append.mp hx with h | h
      · exact hsub x h
      · simp at h
        exact h ▸ ho
    · simp [hm]

/-- C10 witness: clicking "Bob" on selection ["Alice"] drawn from options
["Alice", "Bob", "Carol"] keeps the invariant and selects "Bob". -/
theorem toggleOption_preserves_invariant_witness :
    (["Alice"].Nodup ∧ (∀ x ∈ ["Alice"], x ∈ ["Alice", "Bob", "Carol"]) ∧
      "Bob" ∈ ["Alice", "Bob", "Carol"]) ∧
    (toggleOption ["Alice"] "Bob").Nodup ∧
    (∀ x ∈ toggleOption ["Alice"] "Bob", x ∈ ["Alice", "Bob", "Carol"]) ∧
    ("Bob" ∈ toggleOption ["Alice"] "Bob" ↔ "Bob" ∉ ["Alice"]) :=
  ⟨⟨by decide, by decide, by decide⟩,
    toggleOption_preserves_invariant ["Alice"] "Bob" ["Alice", "Bob", "Carol"]
      (by decide) (by decide) (by decide)⟩

/-- Helper: folding fresh clicks over a selection appends them in click
order. -/
theorem foldl_toggleOption_fresh (clicks : List String) :
    ∀ sel : List String, (∀ c ∈ clicks, c ∉ sel) → clicks.Nodup →
      List.foldl toggleOption sel clicks = sel ++ clicks := by
  induction clicks with
  | nil => intro sel _ _; simp
  | cons c cs ih =>
    intro sel hnew hnd
    have hc : c ∉ sel := hnew c (by simp)
    have hstep : toggleOption sel c = sel ++ [c] := by
      unfold toggleOption
      rw [if_neg (fun hcon => hc ((contains_eq_true_iff sel c).mp hcon))]
    rw [List.foldl_cons, hstep,
      ih (sel ++ [c])
        (fun x hx => by
          rw [List.mem_append]
          rintro (h | h)
          · exact hnew x (List.mem_cons_of_mem c hx) h
          · simp at h
            exact (List.nodup_cons.mp hnd).1 (h ▸ hx))
        (List.nodup_cons.mp hnd).2]
    simp

/-- C2: for a multi-choice elicitation, a sequence of clicks in which each
clicked label is newly selected (no clicked label repeats, so none is
deselected) leaves the selection equal to the click sequence, and the
answer submitted on confirm joins the labels in exactly the order the
user clicked them — not in the canonical order of `request.options`. The
first conjunct ties `toggleOption` to the `isArray` branch of
`handleOptionClick`. -/
theorem confirm_preserves_click_order (clicks : List String)
    (hnd : clicks.Nodup) (hne : clicks ≠ []) :
    (∀ sel o, handleOptionClick true sel o = ClickOutcome.select (toggleOption sel o)) ∧
    List.foldl toggleOption [] clicks = clicks ∧
    handleSubmitArray (List.foldl toggleOption [] clicks) =
      some ⟨AnswerValue.str (String.intercalate ", " clicks)⟩ := by
  have hfold : List.foldl toggleOption [] clicks = clicks := by
    have := foldl_toggleOption_fresh clicks [] (by simp) hnd
    simpa using this
  refine ⟨fun sel o => rfl, hfold, ?_⟩
  rw [hfold]
  unfold handleSubmitArray
  rw [if_pos]
  exact List.length_pos.mpr hne

/-- C2 witness: clicking "Bob" then "Alice" (options offered as
["Alice", "Bob", "Carol"]) submits the string joining "Bob" before
"Alice", the click order rather than the canonical option order. -/
theorem confirm_preserves_click_order_witness :
    (["Bob", "Alice"].Nodup ∧ ["Bob", "Alice"] ≠ ([] : List String)) ∧
    List.foldl toggleOption [] ["Bob", "Alice"] = ["Bob", "Alice"] ∧
    handleSubmitArray (List.foldl toggleOption [] ["Bob", "Alice"]) =
      some ⟨AnswerValue.str (String.intercalate ", " ["Bob", "Alice"])⟩ :=
  ⟨⟨by decide, by decide⟩,
    (confirm_preserves_click_order ["Bob", "Alice"] (by decide) (by decide)).2⟩

/-- Helper: with an elicitation pending, `handleElicitationResponse` posts
a body carrying that elicitation's id and the given response. -/
theorem handleElicitationResponse_posts (s : HomeState) (e : ElicitationRequest)
    (r : ResponseBody) (o : Bool) (h : s.elicitation = some e) :
    (handleElicitationResponse s r o).2 = some ⟨e.elicitation_id, r⟩ := by
  unfold handleElicitationResponse
  rw [h]
  cases o <;> simp

/-- C1 counterexample: with elicitation "x" pending and the selection
["Bob", "Alice"], confirming posts the answer as the single
comma-separated string "Bob, Alice" inside the `value` field — not as the
list ["Bob", "Alice"] the claim describes. -/
theorem multi_choice_answer_posted_as_string_not_list :
    (confirmMultiChoice
        (HomeState.mk [] "" false []
          (some ⟨"x", "Who will attend?", some ["Alice", "Bob", "Carol"], none⟩) "" [])
        ["Bob", "Alice"] true).2 =
      some ⟨"x", ⟨AnswerValue.str "Bob, Alice"⟩⟩ ∧
    AnswerValue.str "Bob, Alice" ≠ AnswerValue.list ["Bob", "Alice"] := by
  constructor
  · decide
  · decide

/-- C1 (amended): when the user confirms a non-empty multi-choice
selection while an elicitation is pending, the frontend posts a body
carrying the elicitation id and the answer as a single comma-separated
string joining the selected labels in selection order. -/
theorem confirm_posts_id_and_joined_string (st : HomeState) (e : ElicitationRequest)
    (sel : List String) (ok : Bool) (he : st.elicitation = some e) (hne : sel ≠ []) :
    (confirmMultiChoice st sel ok).2 =
      some ⟨e.elicitation_id, ⟨AnswerValue.str (String.intercalate ", " sel)⟩⟩ := by
  have hsub : handleSubmitArray sel =
      some ⟨AnswerValue.str (String.intercalate ", " sel)⟩ := by
    unfold handleSubmitArray
    rw [if_pos (List.length_pos.mpr hne)]
  unfold confirmMultiChoice
  rw [hsub]
  exact handleElicitationResponse_posts st e _ ok he

/-- C1 (amended) witness: the concrete confirmation of ["Bob", "Alice"]
against pending elicitation "x" posts id "x" with the joined string. -/
theorem confirm_posts_id_and_joined_string_witness :
    ((HomeState.mk [] "" false []
        (some ⟨"x", "Who will attend?", some ["Alice", "Bob", "Carol"], none⟩) "" []).elicitation =
      some ⟨"x", "Who will attend?", some ["Alice", "Bob", "Carol"], none⟩ ∧
      ["Bob", "Alice"] ≠ ([] : List String)) ∧
    (confirmMultiChoice
        (HomeState.mk [] "" false []
          (some ⟨"x", "Who will attend?", some ["Alice", "Bob", "Carol"], none⟩) "" [])
        ["Bob", "Alice"] false).2 =
      some ⟨"x", ⟨AnswerValue.str (String.intercalate ", " ["Bob", "Alice"])⟩⟩ :=
  ⟨⟨rfl, by decide⟩,
    confirm_posts_id_and_joined_string
      (HomeState.mk [] "" false []
        (some ⟨"x", "Who will attend?", some ["Alice", "Bob", "Carol"], none⟩) "" [])
      ⟨"x", "Who will attend?", some ["Alice", "Bob", "Carol"], none⟩
      ["Bob", "Alice"] false rfl (by decide)⟩

/-- C3 evidence: a stream delivering the delta "Hello", then the `[DONE]`
sentinel, then closing, makes `sendMessage` append the assistant message
twice — once in the `[DONE]` branch and once in the after-loop
finalisation, because `accumulatedContent` is never cleared. The history
gains two copies, where the claim (and the append-only one-record-per-turn
reading of the spec) expects one. -/
theorem assistant_message_appended_twice :
    (sendMessage (HomeState.mk [] "hi" false [] none "" [])
        (some [StreamLine.textDelta "Hello", StreamLine.done])).1.messages =
      [⟨Role.user, "hi", none⟩, ⟨Role.assistant, "Hello", none⟩,
       ⟨Role.assistant, "Hello", none⟩] := by
  decide

/-- C4 counterexample: two elicitation requests with identical `schema`
(null) and identical `options` render different input kinds purely
because of the prompt wording: "Pick one" renders single-choice while
"Who will attend?" renders multi-choice (the code forces multi-select
when the lowercased message contains "attend" or "participant"). -/
theorem rendered_kind_depends_on_message_wording :
    (ElicitationRequest.mk "e1" "Pick one" (some ["Alice", "Bob", "Carol"]) none).schema =
      (ElicitationRequest.mk "e2" "Who will attend?"
        (some ["Alice", "Bob", "Carol"]) none).schema ∧
    (ElicitationRequest.mk "e1" "Pick one" (some ["Alice", "Bob", "Carol"]) none).options =
      (ElicitationRequest.mk "e2" "Who will attend?"
        (some ["Alice", "Bob", "Carol"]) none).options ∧
    renderedKind (ElicitationRequest.mk "e1" "Pick one"
        (some ["Alice", "Bob", "Carol"]) none) = InputKind.singleChoice ∧
    renderedKind (ElicitationRequest.mk "e2" "Who will attend?"
        (some ["Alice", "Bob", "Carol"]) none) = InputKind.multiChoice := by
  refine ⟨rfl, rfl, ?_, ?_⟩ <;> decide

/-- C4 (amended): the kind of input rendered is a function of the
presence of `request.options`, the first schema property's `type`, and
whether the lowercased prompt message mentions "attend" or "participant";
free text versus option selection is decided by `request.options` alone,
but the message wording can force multi-select. -/
theorem renderedKind_determined_by_options_schema_message (r1 r2 : ElicitationRequest)
    (hopt : r1.options.isSome = r2.options.isSome)
    (hty : (firstFieldSchema r1).type = (firstFieldSchema r2).type)
    (hmsg : isParticipantsMessage r1 = isParticipantsMessage r2) :
    renderedKind r1 = renderedKind r2 := by
  unfold renderedKind isArrayKind
  cases h1 : r1.options <;> cases h2 : r2.options
  · rfl
  · rw [h1, h2] at hopt
    simp at hopt
  · rw [h1, h2] at hopt
    simp at hopt
  · rw [hty, hmsg]

/-- C4 (amended) witness: two concrete requests agreeing on option
presence, first field type and the participants test render the same
kind. -/
theorem renderedKind_determined_witness :
    ((ElicitationRequest.mk "a" "Who will attend?" (some ["Alice"]) none).options.isSome =
        (ElicitationRequest.mk "b" "Select the participants"
          (some ["Bob", "Carol"]) none).options.isSome ∧
      (firstFieldSchema (ElicitationRequest.mk "a" "Who will attend?"
          (some ["Alice"]) none)).type =
        (firstFieldSchema (ElicitationRequest.mk "b" "Select the participants"
          (some ["Bob", "Carol"]) none)).type ∧
      isParticipantsMessage (ElicitationRequest.mk "a" "Who will attend?"
          (some ["Alice"]) none) =
        isParticipantsMessage (ElicitationRequest.mk "b" "Select the participants"
          (some ["Bob", "Carol"]) none)) ∧
    renderedKind (ElicitationRequest.mk "a" "Who will attend?" (some ["Alice"]) none) =
      renderedKind (ElicitationRequest.mk "b" "Select the participants"
        (some ["Bob", "Carol"]) none) :=
  ⟨⟨rfl, rfl, by decide⟩,
    renderedKind_determined_by_options_schema_message
      (ElicitationRequest.mk "a" "Who will attend?" (some ["Alice"]) none)
      (ElicitationRequest.mk "b" "Select the participants" (some ["Bob", "Carol"]) none)
      rfl rfl (by decide)⟩

end QuickCall
